import Mathlib

/-!
Verification of the TheNeural-Playground training pipeline.

The definitions below are a shallow embedding of the Python sources:
  * `src/backend/app/training_worker.py`  — the Pub/Sub training worker
    (`TrainingWorker.process_message`, `start_worker`);
  * `src/backend/app/training_service.py` — the trainer
    (`EnhancedTextPreprocessor`, `EnhancedLogisticRegressionTrainer`).

External library behaviour (Pub/Sub delivery, NLTK tokenizer/lemmatizer/
stemmer/stopwords, scikit-learn fitting and probability estimates, the
train/validation splitter) is taken as a parameter of the embedding;
everything written in the repository itself is translated directly.
-/

namespace Playground

/-! ## Training worker (`training_worker.py`) -/

/-- Outcome of `training_job_service.process_training_job(job_id)`
(module `training_job_service` is external to the worker file): the call
returns `True`, returns `False`, or raises an exception. -/
inductive JobOutcome where
  | success : JobOutcome
  | failure : JobOutcome
  | raises  : JobOutcome
deriving DecidableEq, Repr

/-- Result of `json.loads(message.data)` followed by the two `data.get`
calls in `process_message`: `jobId` and `action` are `None` when the key
is absent.  A message whose body fails to parse is modelled as `none` at
the `Option MsgPayload` level below. -/
structure MsgPayload where
  jobId : Option String
  action : Option String
deriving DecidableEq, Repr

/-- `TrainingWorker.__init__`: `max_concurrent_jobs = 3` and
`running_jobs = set()`. -/
structure WorkerState where
  max_concurrent_jobs : Nat
  running_jobs : Finset String
deriving DecidableEq

/-- The worker as constructed (`max_concurrent_jobs = 3`, empty set). -/
def initWorker : WorkerState :=
  ⟨3, ∅⟩

/-- Python truthiness of `data.get('jobId')`: `None` and the empty string
are falsy (`if not job_id or ...`). -/
def truthyJobId : Option String → Option String
  | none => none
  | some s => if s = "" then none else some s

/-- Observable effects of one `process_message` call: the in-flight set
after the call, the largest value the in-flight set takes during the call
(`peak`), whether `message.ack()` was called, and the job id passed to
`process_training_job` when the pipeline ran (`none` otherwise). -/
structure StepResult where
  running_jobs : Finset String
  peak : Finset String
  acked : Bool
  ran : Option String
deriving DecidableEq

/-- `TrainingWorker.process_message` (training_worker.py lines 51–98).
`msg = none` models a body on which `json.loads` raises: the outer
`except` acknowledges it.  Otherwise: an invalid payload (falsy `jobId`
or `action != 'start_training'`) is acknowledged and dropped; at capacity
(`len(running_jobs) >= max_concurrent_jobs`) the worker returns without
acknowledging; otherwise the id is added to `running_jobs`,
`process_training_job` runs, the message is acknowledged on success,
failure and exception alike (`# Don't retry failed jobs`), and the
`finally` block discards the id. -/
def process_message (st : WorkerState) (outcome : String → JobOutcome)
    (msg : Option MsgPayload) : StepResult :=
  match msg with
  | none => ⟨st.running_jobs, st.running_jobs, true, none⟩
  | some payload =>
    match truthyJobId payload.jobId with
    | none => ⟨st.running_jobs, st.running_jobs, true, none⟩
    | some job_id =>
      if payload.action ≠ some "start_training" then
        ⟨st.running_jobs, st.running_jobs, true, none⟩
      else if st.max_concurrent_jobs ≤ st.running_jobs.card then
        ⟨st.running_jobs, st.running_jobs, false, none⟩
      else
        ⟨(insert job_id st.running_jobs).erase job_id,
         insert job_id st.running_jobs, true, some job_id⟩

/-- Trace of a sequence of message receipts: each receipt is processed by
`process_message` against the in-flight set left by the previous one. -/
def worker_trace (st : WorkerState) (outcome : String → JobOutcome) :
    List (Option MsgPayload) → List StepResult
  | [] => []
  | m :: ms =>
    let r := process_message st outcome m
    r :: worker_trace ⟨st.max_concurrent_jobs, r.running_jobs⟩ outcome ms

/-- A queue message is poison when its body does not parse (`none`), its
`jobId` is absent or falsy, or its `action` is not `start_training`. -/
def poisonMsg (msg : Option MsgPayload) : Prop :=
  msg = none ∨
    ∃ p, msg = some p ∧
      (truthyJobId p.jobId = none ∨ p.action ≠ some "start_training")

/-- One `process_message` call keeps the in-flight set (final and peak)
within the concurrency cap whenever it starts within the cap. -/
theorem process_message_card_le (st : WorkerState)
    (outcome : String → JobOutcome) (msg : Option MsgPayload)
    (h : st.running_jobs.card ≤ st.max_concurrent_jobs) :
    (process_message st outcome msg).peak.card ≤ st.max_concurrent_jobs ∧
      (process_message st outcome msg).running_jobs.card ≤
        st.max_concurrent_jobs := by
  cases msg with
  | none => simpa [process_message] using h
  | some p =>
    cases htr : truthyJobId p.jobId with
    | none => simpa [process_message, htr] using h
    | some j =>
      by_cases hact : p.action ≠ some "start_training"
      · simpa [process_message, htr, hact] using h
      · by_cases hcap : st.max_concurrent_jobs ≤ st.running_jobs.card
        · simpa [process_message, htr, hact, hcap] using h
        · have hlt : st.running_jobs.card < st.max_concurrent_jobs :=
            lt_of_not_le hcap
          have hpeak : (insert j st.running_jobs).card ≤
              st.max_concurrent_jobs := by
            have := Finset.card_insert_le j st.running_jobs
            omega
          have hrun : (st.running_jobs.erase j).card ≤
              st.max_concurrent_jobs :=
            le_trans Finset.card_erase_le h
          simp only [process_message, htr, hact, hcap]
          simp [hact, hcap]
          exact ⟨hpeak, hrun⟩

/-- Claim C1 (counterexample).  The claim says a message whose `jobId` is
already in the in-flight set is acknowledged without running the pipeline
again.  The code has no such guard: with `"j1"` in flight and spare
capacity, `process_message` runs `process_training_job("j1")` a second
time (`ran = some "j1"`). -/
theorem c1_counterexample :
    "j1" ∈ ({"j1"} : Finset String) ∧
      (process_message ⟨3, {"j1"}⟩ (fun _ => JobOutcome.success)
          (some ⟨some "j1", some "start_training"⟩)).ran = some "j1" := by
  decide

/-- Claim C1 (amended).  `process_message` has no duplicate-delivery
guard: a valid `start_training` message whose `jobId` is already in the
in-flight set is, under capacity, processed like any other — the pipeline
runs again for that id, the message is acknowledged, and the `finally`
block then erases the id from the in-flight set even though it was
already in flight. -/
theorem c1_amended (st : WorkerState) (outcome : String → JobOutcome)
    (j : String) (hj : j ≠ "") (hmem : j ∈ st.running_jobs)
    (hcap : st.running_jobs.card < st.max_concurrent_jobs) :
    process_message st outcome (some ⟨some j, some "start_training"⟩) =
      ⟨st.running_jobs.erase j, st.running_jobs, true, some j⟩ := by
  simp [process_message, truthyJobId, hj, not_le.mpr hcap,
    Finset.insert_eq_self.mpr hmem]

/-- Witness for `c1_amended` at `st = ⟨3, {"j1"}⟩`, `j = "j1"`. -/
theorem c1_amended_witness :
    ("j1" : String) ≠ "" ∧ "j1" ∈ ({"j1"} : Finset String) ∧
      ({"j1"} : Finset String).card < 3 ∧
      process_message ⟨3, {"j1"}⟩ (fun _ => JobOutcome.raises)
          (some ⟨some "j1", some "start_training"⟩) =
        ⟨({"j1"} : Finset String).erase "j1", {"j1"}, true, some "j1"⟩ :=
  ⟨by decide, by decide, by decide,
    c1_amended ⟨3, {"j1"}⟩ (fun _ => JobOutcome.raises) "j1"
      (by decide) (by decide) (by decide)⟩

/-- Claim C2 (counterexample).  The claim says every message received
while the in-flight set is at capacity is left unacknowledged.  A poison
message received at capacity is acknowledged anyway: the parse/shape
check precedes the capacity check. -/
theorem c2_counterexample :
    (3 : Nat) ≤ ({"a", "b", "c"} : Finset String).card ∧
      (process_message ⟨3, {"a", "b", "c"}⟩ (fun _ => JobOutcome.success)
          none).acked = true := by
  decide

/-- Claim C2 (amended).  For every *valid* `start_training` message
received at capacity, `process_message` returns without acknowledging
and leaves the in-flight set unchanged (poison messages are acknowledged
and dropped regardless of capacity); and along any sequence of message
receipts starting within the cap, the in-flight set — including its peak
value inside each call — never exceeds `max_concurrent_jobs`. -/
theorem c2_amended (st : WorkerState) (outcome : String → JobOutcome) :
    (∀ j : String, j ≠ "" →
        st.max_concurrent_jobs ≤ st.running_jobs.card →
        process_message st outcome (some ⟨some j, some "start_training"⟩) =
          ⟨st.running_jobs, st.running_jobs, false, none⟩) ∧
      (∀ msgs : List (Option MsgPayload),
        st.running_jobs.card ≤ st.max_concurrent_jobs →
        ∀ r ∈ worker_trace st outcome msgs,
          r.peak.card ≤ st.max_concurrent_jobs ∧
            r.running_jobs.card ≤ st.max_concurrent_jobs) := by
  constructor
  · intro j hj hcap
    simp [process_message, truthyJobId, hj, hcap]
  · intro msgs
    induction msgs generalizing st with
    | nil => intro _ r hr; simp [worker_trace] at hr
    | cons m ms ih =>
      intro h r hr
      rw [worker_trace] at hr
      rcases List.mem_cons.mp hr with hhead | htail
      · subst hhead
        exact process_message_card_le st outcome m h
      · exact ih ⟨st.max_concurrent_jobs,
          (process_message st outcome m).running_jobs⟩
          (process_message_card_le st outcome m h).2 r htail

/-- Witness for `c2_amended` at a worker at capacity `{"a","b","c"}`,
message `jobId = "j9"`, and a one-message trace. -/
theorem c2_amended_witness :
    (("j9" : String) ≠ "") ∧
      ((3 : Nat) ≤ ({"a", "b", "c"} : Finset String).card) ∧
      process_message ⟨3, {"a", "b", "c"}⟩ (fun _ => JobOutcome.success)
          (some ⟨some "j9", some "start_training"⟩) =
        ⟨{"a", "b", "c"}, {"a", "b", "c"}, false, none⟩ ∧
      ((process_message ⟨3, {"a", "b", "c"}⟩ (fun _ => JobOutcome.success)
            none).peak.card ≤ 3 ∧
        (process_message ⟨3, {"a", "b", "c"}⟩ (fun _ => JobOutcome.success)
            none).running_jobs.card ≤ 3) :=
  ⟨by decide, by decide,
    (c2_amended ⟨3, {"a", "b", "c"}⟩ (fun _ => JobOutcome.success)).1 "j9"
      (by decide) (by decide),
    (c2_amended ⟨3, {"a", "b", "c"}⟩ (fun _ => JobOutcome.success)).2 [none]
      (by decide) _ (by decide)⟩

/-- Claim C3 (counterexample).  The claim says an infrastructure error
raised while handling a message escapes `process_message` with the
message left unacknowledged.  In the code every exception from
`process_training_job` is caught and the message is acknowledged
(`# Don't retry failed jobs`): here the job raises and `acked = true`. -/
theorem c3_counterexample :
    (process_message ⟨3, ∅⟩ (fun _ => JobOutcome.raises)
        (some ⟨some "j1", some "start_training"⟩)).acked = true := by
  decide

/-- Claim C3 (amended).  No error escapes `process_message`
unacknowledged: every message is either acknowledged, or (only in the
at-capacity case) left unacknowledged with nothing run and the in-flight
set unchanged; in particular a job whose pipeline raises still gets its
message acknowledged, so the queue never redelivers it. -/
theorem c3_amended (st : WorkerState) (outcome : String → JobOutcome) :
    (∀ msg : Option MsgPayload,
        (process_message st outcome msg).acked = true ∨
          ((process_message st outcome msg).acked = false ∧
            (process_message st outcome msg).running_jobs =
              st.running_jobs ∧
            (process_message st outcome msg).ran = none)) ∧
      (∀ j : String, j ≠ "" →
        st.running_jobs.card < st.max_concurrent_jobs →
        outcome j = JobOutcome.raises →
        (process_message st outcome
            (some ⟨some j, some "start_training"⟩)).acked = true ∧
          (process_message st outcome
              (some ⟨some j, some "start_training"⟩)).ran = some j) := by
  constructor
  · intro msg
    cases msg with
    | none => left; rfl
    | some p =>
      cases htr : truthyJobId p.jobId with
      | none => left; simp [process_message, htr]
      | some j =>
        by_cases hact : p.action ≠ some "start_training"
        · left; simp [process_message, htr, hact]
        · by_cases hcap : st.max_concurrent_jobs ≤ st.running_jobs.card
          · right; simp [process_message, htr, hact, hcap]
          · left; simp [process_message, htr, hact, hcap]
  · intro j hj hcap _
    constructor
    · simp [process_message, truthyJobId, hj, not_le.mpr hcap]
    · simp [process_message, truthyJobId, hj, not_le.mpr hcap]

/-- Witness for `c3_amended`: an empty worker and a job that raises. -/
theorem c3_amended_witness :
    ((process_message ⟨3, ∅⟩ (fun _ => JobOutcome.raises) none).acked =
          true ∨
        ((process_message ⟨3, ∅⟩ (fun _ => JobOutcome.raises) none).acked =
            false ∧
          (process_message ⟨3, ∅⟩ (fun _ => JobOutcome.raises)
              none).running_jobs = (∅ : Finset String) ∧
          (process_message ⟨3, ∅⟩ (fun _ => JobOutcome.raises) none).ran =
            none)) ∧
      (("j7" : String) ≠ "" ∧ (∅ : Finset String).card < 3 ∧
        (fun _ : String => JobOutcome.raises) "j7" = JobOutcome.raises ∧
        ((process_message ⟨3, ∅⟩ (fun _ => JobOutcome.raises)
              (some ⟨some "j7", some "start_training"⟩)).acked = true ∧
          (process_message ⟨3, ∅⟩ (fun _ => JobOutcome.raises)
              (some ⟨some "j7", some "start_training"⟩)).ran =
            some "j7")) :=
  ⟨(c3_amended ⟨3, ∅⟩ (fun _ => JobOutcome.raises)).1 none,
    by decide, by decide, by decide,
    (c3_amended ⟨3, ∅⟩ (fun _ => JobOutcome.raises)).2 "j7" (by decide)
      (by decide) (by decide)⟩

/-- Claim C4 (confirmed).  A message whose body does not parse, whose
`jobId` is absent/falsy, or whose `action` is not `start_training` is
acknowledged immediately, runs no job, and leaves the in-flight set
untouched — poison messages are never retried. -/
theorem c4_poison_acked (st : WorkerState) (outcome : String → JobOutcome)
    (msg : Option MsgPayload) (h : poisonMsg msg) :
    process_message st outcome msg =
      ⟨st.running_jobs, st.running_jobs, true, none⟩ := by
  rcases h with rfl | ⟨p, rfl, hbad⟩
  · rfl
  · cases htr : truthyJobId p.jobId with
    | none => simp [process_message, htr]
    | some j =>
      rcases hbad with hnone | hact
      · rw [htr] at hnone; exact absurd hnone (by simp)
      · simp [process_message, htr, hact]

/-- Witness for `c4_poison_acked`: a parsed payload with an empty
(falsy) `jobId`. -/
theorem c4_poison_acked_witness :
    poisonMsg (some ⟨some "", some "start_training"⟩) ∧
      process_message ⟨3, ∅⟩ (fun _ => JobOutcome.success)
          (some ⟨some "", some "start_training"⟩) =
        ⟨(∅ : Finset String), ∅, true, none⟩ :=
  ⟨Or.inr ⟨_, rfl, Or.inl rfl⟩,
    c4_poison_acked ⟨3, ∅⟩ (fun _ => JobOutcome.success)
      (some ⟨some "", some "start_training"⟩)
      (Or.inr ⟨_, rfl, Or.inl rfl⟩)⟩

/-! ## Trainer (`training_service.py`) -/

/-- `models.TextExample` (text/label payload; the `addedAt` timestamp is
never read by the trainer and is omitted). -/
structure TextExample where
  text : String
  label : String
deriving DecidableEq, Repr

/-- The `custom_stops` set added in `EnhancedTextPreprocessor.__init__`. -/
def customStops : List String :=
  ["the", "a", "an", "and", "or", "but", "in", "on", "at", "to", "for",
   "of", "with", "by", "is", "are", "was", "were", "be", "been", "being",
   "have", "has", "had", "do", "does", "did", "will", "would", "could",
   "should", "may", "might", "can", "this", "that", "these", "those"]

/-- External NLTK behaviour used by the preprocessor: `word_tokenize`,
`WordNetLemmatizer.lemmatize`, `PorterStemmer.stem`, and the english
stop-word corpus.  They are parameters of the embedding; the repository
code is written against them. -/
structure NLP where
  tokenize : String → List String
  lemmatize : String → String
  stem : String → String
  nltkStopwords : List String

/-- `self.stop_words`: the NLTK english list extended with
`custom_stops` (a set; only membership is ever used). -/
def stop_words (nlp : NLP) : List String :=
  nlp.nltkStopwords ++ customStops

/-- ASCII whitespace as matched by the `\s` class in `clean_text`'s
regexes (Python also matches Unicode whitespace; the ASCII subset is
enough for every claim). -/
def pyIsSpace (c : Char) : Bool :=
  c == ' ' || c == '\t' || c == '\n' || c == '\r' ||
    c == Char.ofNat 11 || c == Char.ofNat 12

/-- A character kept by `re.sub(r"[^a-zA-Z\s\x27]", " ", text)`:
ASCII letters, whitespace, and the apostrophe. -/
def pyKeepChar (c : Char) : Bool :=
  c.isAlpha || c == Char.ofNat 39 || pyIsSpace c

/-- Python's `str.lower()` (basic-latin case folding, which is all the
cleaned alphabet ever contains). -/
def strLower (s : String) : String :=
  String.mk (s.data.map Char.toLower)

/-- Split a character list at every character satisfying `p`, keeping
empty pieces (the behaviour of splitting a string on single
characters). -/
def splitChars (p : Char → Bool) : List Char → List (List Char)
  | [] => [[]]
  | c :: rest =>
    let r := splitChars p rest
    if p c then [] :: r else (c :: r.headD []) :: r.tail

/-- Python's `str.strip()`: drop whitespace from both ends. -/
def pyStrip (s : String) : String :=
  String.mk (((s.data.dropWhile pyIsSpace).reverse.dropWhile
    pyIsSpace).reverse)

/-- `EnhancedTextPreprocessor.clean_text`: lower-case, replace every
character outside `[a-zA-Z\s\x27]` with a space, collapse whitespace
runs to single spaces and strip the ends (`re.sub(r"\s+", " ", t).strip()`
is the same as joining the whitespace-separated words with one space). -/
def clean_text (s : String) : String :=
  let lowered := (strLower s).data
  let replaced := lowered.map (fun c => if pyKeepChar c then c else ' ')
  String.intercalate " "
    (((splitChars pyIsSpace replaced).map String.mk).filter
      (fun w => w != ""))

/-- `EnhancedTextPreprocessor.tokenize_and_clean`: clean, tokenize, keep
tokens longer than 2 characters whose lower-case form is not a stop
word, and lemmatize then stem each kept token. -/
def tokenize_and_clean (nlp : NLP) (text : String) : List String :=
  let cleaned := clean_text text
  let tokens := nlp.tokenize cleaned
  (tokens.filter (fun t =>
      decide (2 < t.length) &&
        !((stop_words nlp).contains (strLower t)))).map
    (fun t => nlp.stem (nlp.lemmatize (strLower t)))

/-- `EnhancedTextPreprocessor.preprocess_text`: space-join the cleaned
tokens. -/
def preprocess_text (nlp : NLP) (text : String) : String :=
  String.intercalate " " (tokenize_and_clean nlp text)

/-- `EnhancedLogisticRegressionTrainer.preprocess_data`: keep, in input
order, exactly the examples whose preprocessed text is non-empty
(`if processed_text.strip():`), returning the processed texts and their
labels. -/
def preprocess_data (nlp : NLP) (examples : List TextExample) :
    List String × List String :=
  let pairs := examples.filterMap (fun e =>
    let processed := preprocess_text nlp e.text
    if pyStrip processed != "" then some (processed, e.label) else none)
  (pairs.map Prod.fst, pairs.map Prod.snd)

/-- Number of occurrences of label `l` in the example list. -/
def countLabel (examples : List TextExample) (l : String) : Nat :=
  (examples.map TextExample.label).count l

/-- One step of building the `label_counts` dict:
`label_counts[label] = label_counts.get(label, 0) + 1` on an association
list in insertion order. -/
def bump : List (String × Nat) → String → List (String × Nat)
  | [], l => [(l, 1)]
  | (k, c) :: rest, l =>
    if k = l then (k, c + 1) :: rest else (k, c) :: bump rest l

/-- The `label_counts` dict of `validate_dataset`, as an association
list whose key order is the dict's insertion order. -/
def labelCounts (examples : List TextExample) : List (String × Nat) :=
  examples.foldl (fun acc e => bump acc e.label) []

/-- The message for a label below the per-label minimum (2). -/
def minMsg (l : String) (c : Nat) : String :=
  "Label \x27" ++ l ++ "\x27 has only " ++ toString c ++
    " examples. Minimum required is 2"

/-- The message for a label above the per-label maximum (10000). -/
def maxMsg (l : String) (c : Nat) : String :=
  "Label \x27" ++ l ++ "\x27 has " ++ toString c ++
    " examples. Maximum allowed is 10000"

/-- `EnhancedLogisticRegressionTrainer.validate_dataset` (lines
151–170): empty input is rejected; the first label (in dict order) with
fewer than 2 or more than 10000 examples is rejected with a message
naming it; otherwise the dataset is valid. -/
def validate_dataset (examples : List TextExample) : Bool × String :=
  if examples.isEmpty then (false, "No examples provided")
  else
    match (labelCounts examples).find?
        (fun p => decide (p.2 < 2) || decide (10000 < p.2)) with
    | some (l, c) => (false, if c < 2 then minMsg l c else maxMsg l c)
    | none => (true, "Dataset is valid")

/-- A scikit-learn vectorizer, observed through the only state the
claims need: the training texts it was fitted on (`none` = never
fitted; `transform` raises `NotFittedError` then). -/
structure SkVectorizer where
  fittedOn : Option (List String)
deriving DecidableEq, Repr

/-- A scikit-learn classifier, observed through the texts/labels it was
fitted on (`none` = never fitted). -/
structure SkClassifier where
  fittedOn : Option (List String × List String)
deriving DecidableEq, Repr

/-- The `best_pipeline` produced by grid search and the final
`best_pipeline.fit(X_train, y_train)` call: a fitted
vectorizer/classifier pair. -/
structure FittedPipeline where
  vectorizer : SkVectorizer
  classifier : SkClassifier
deriving DecidableEq, Repr

/-- The trainer's own estimators, `self.tfidf_vectorizer` and
`self.base_model`, as created in
`EnhancedLogisticRegressionTrainer.__init__` and (possibly) fitted
later.  `GridSearchCV` and `best_pipeline.fit` operate on *clones* of
`self.pipeline`, so nothing in `train_model` ever fits these two
objects. -/
structure TrainerState where
  tfidf_vectorizer : SkVectorizer
  base_model : SkClassifier
deriving DecidableEq, Repr

/-- The trainer as constructed: both estimators unfitted. -/
def initialTrainer : TrainerState :=
  ⟨⟨none⟩, ⟨none⟩⟩

/-- `EnhancedLogisticRegressionTrainer.train_model` (lines 215–304),
with the external scikit-learn pieces as parameters: `split` is
`train_test_split` (stratified flag, texts, labels ↦ ((X_train, X_val),
(y_train, y_val))).  Validation failure raises `ValueError(message)`.
On success the grid search fits clones of `self.pipeline` and the best
clone is re-fitted on the training split; the trainer's own
`tfidf_vectorizer`/`base_model` are never re-assigned or fitted, so the
state comes back unchanged next to the fitted `best_pipeline`.  The
metrics bag (held-out accuracy, CV scores, report, confusion matrix) is
computed by further external evaluation calls on `best_pipeline` and is
not needed by any claim, so it is not materialised here. -/
def train_model (nlp : NLP)
    (split : Bool → List String → List String →
      (List String × List String) × (List String × List String))
    (st : TrainerState) (examples : List TextExample) :
    Except String (TrainerState × FittedPipeline) :=
  match validate_dataset examples with
  | (false, msg) => .error msg
  | (true, _) =>
    let texts := (preprocess_data nlp examples).1
    let labels := (preprocess_data nlp examples).2
    let can_stratify := labels.all (fun l => decide (2 ≤ labels.count l))
    let sp := split can_stratify texts labels
    let X_train := sp.1.1
    let y_train := sp.2.1
    .ok (st, ⟨⟨some X_train⟩, ⟨some (X_train, y_train)⟩⟩)

/-- The dict pickled by `EnhancedLogisticRegressionTrainer.save_model`
(lines 332–343): `self.tfidf_vectorizer` and `self.base_model` (the
`trained_at` timestamp is external wall-clock data).  Loading the pickle
returns this same data. -/
structure SavedModelData where
  vectorizer : SkVectorizer
  model : SkClassifier
deriving DecidableEq, Repr

/-- `save_model`: pickle `{'vectorizer': self.tfidf_vectorizer,
'model': self.base_model}`. -/
def save_model (st : TrainerState) : SavedModelData :=
  ⟨st.tfidf_vectorizer, st.base_model⟩

/-- An entry of the `alternatives` list built by `predict`. -/
structure Alternative where
  label : String
  confidence : ℚ
deriving DecidableEq, Repr

/-- The dict returned by `predict`. -/
structure PredictionResult where
  label : String
  confidence : ℚ
  alternatives : List Alternative
deriving DecidableEq, Repr

/-- Python's `round(x, 2)` on the exact rationals of the embedding
(Python rounds half to even; the two agree except at exact half-cent
ties, which no claim exercises). -/
def round2 (x : ℚ) : ℚ :=
  ((round (x * 100) : ℤ) : ℚ) / 100

/-- Python's `max` over the probability list (`max(probabilities)`). -/
def listMax : List ℚ → ℚ
  | [] => 0
  | a :: t => t.foldl max a

/-- The index `model.predict` selects: the first index attaining the
maximum probability (`np.argmax` semantics; for this classifier
`predict` and `predict_proba` agree on the arg-max). -/
def argmaxIdx (l : List ℚ) : Nat :=
  l.indexOf (listMax l)

/-- The descending-confidence order used by
`alternatives.sort(key=..., reverse=True)`. -/
def altGE (a b : Alternative) : Prop :=
  b.confidence ≤ a.confidence

instance : DecidableRel altGE :=
  fun a b => inferInstanceAs (Decidable (b.confidence ≤ a.confidence))

instance : IsTotal Alternative altGE :=
  ⟨fun a b => le_total b.confidence a.confidence⟩

instance : IsTrans Alternative altGE :=
  ⟨fun _ _ _ hab hbc => le_trans hbc hab⟩

/-- The post-processing of `predict` (lines 374–396) applied to the
classifier's classes and per-class probabilities for the input text:
arg-max label, `confidence = round(max(probabilities) * 100, 2)`,
alternatives = every other class with its rounded percentage, sorted by
descending confidence (Python's stable sort; insertion sort here), the
top 2 kept. -/
def predictPost (classes : List String) (probs : List ℚ) :
    PredictionResult :=
  let prediction := classes.getD (argmaxIdx probs) ""
  let confidence := listMax probs * 100
  let alternatives :=
    ((classes.zip probs).filter (fun p => p.1 != prediction)).map
      (fun p => (⟨p.1, round2 (p.2 * 100)⟩ : Alternative))
  ⟨prediction, round2 confidence, (List.insertionSort altGE alternatives).take 2⟩

/-- `EnhancedLogisticRegressionTrainer.predict` (lines 362–396) applied
to loaded model data: `vectorizer.transform` and the model's
`predict`/`predict_proba` raise `NotFittedError` on never-fitted
estimators; otherwise `sk` supplies the fitted classifier's classes and
probabilities for the text and the source's post-processing runs. -/
def predict
    (sk : List String × List String → String → List String × List ℚ)
    (data : SavedModelData) (text : String) :
    Except String PredictionResult :=
  match data.vectorizer.fittedOn with
  | none => .error "NotFittedError"
  | some _ =>
    match data.model.fittedOn with
    | none => .error "NotFittedError"
    | some fit => .ok (predictPost (sk fit text).1 (sk fit text).2)

/-! ## Concrete instantiations of the external parameters, used to run
the embedding on explicit inputs. -/

/-- A concrete instantiation of the NLTK parameters: whitespace
tokenizer, identity lemmatizer and stemmer, empty corpus stop-word list
(the `custom_stops` of the source still apply through `stop_words`). -/
def simpleNLP : NLP :=
  ⟨fun s => ((splitChars pyIsSpace s.data).map String.mk).filter
      (fun w => w != ""),
    id, id, []⟩

/-- A concrete instantiation of the `train_test_split` parameter that
puts every example in the training partition. -/
def simpleSplit : Bool → List String → List String →
    (List String × List String) × (List String × List String) :=
  fun _ texts labels => ((texts, []), (labels, []))

/-- A concrete instantiation of the fitted-classifier behaviour: two
classes with fixed probabilities. -/
def simpleSk : List String × List String → String → List String × List ℚ :=
  fun _ _ => (["pos", "neg"], [3/4, 1/4])

/-! ## Claims C8–C10 -/

/-- Claim C8 (code bug).  `train_model` on a valid dataset leaves the
trainer's own `tfidf_vectorizer`/`base_model` exactly as constructed —
only the grid-search clone `best_pipeline` is fitted — yet `save_model`
pickles those never-fitted objects (despite its own `# Save the best
vectorizer` / `# Save the best model` comments).  Predicting through the
saved artifact therefore raises `NotFittedError` instead of reproducing
the trained model's output, for every input text. -/
theorem c8_roundtrip_broken (nlp : NLP)
    (split : Bool → List String → List String →
      (List String × List String) × (List String × List String))
    (sk : List String × List String → String → List String × List ℚ)
    (text : String) :
    (∃ best : FittedPipeline,
        train_model nlp split initialTrainer
            [⟨"good dog", "pos"⟩, ⟨"great cat", "pos"⟩,
             ⟨"bad rat", "neg"⟩, ⟨"awful bug", "neg"⟩] =
          .ok (initialTrainer, best) ∧
        best.vectorizer.fittedOn ≠ none ∧
        best.classifier.fittedOn ≠ none) ∧
      save_model initialTrainer = ⟨⟨none⟩, ⟨none⟩⟩ ∧
      predict sk (save_model initialTrainer) text =
        .error "NotFittedError" := by
  refine ⟨⟨_, rfl, by simp, by simp⟩, rfl, rfl⟩

/-- Claim C9 (code bug).  After training on a dataset containing
`("i love my dog", "pets")` and saving, `predict` on the saved artifact
with the very training text cannot return `"pets"`: the saved
vectorizer/model were never fitted, so the call raises `NotFittedError`
and never returns a prediction at all. -/
theorem c9_trained_example_not_recalled (nlp : NLP)
    (split : Bool → List String → List String →
      (List String × List String) × (List String × List String))
    (sk : List String × List String → String → List String × List ℚ) :
    (∃ best : FittedPipeline,
        train_model nlp split initialTrainer
            [⟨"i love my dog", "pets"⟩, ⟨"my cat is cute", "pets"⟩,
             ⟨"blocks are fun", "toys"⟩, ⟨"lego is fun", "toys"⟩] =
          .ok (initialTrainer, best)) ∧
      predict sk (save_model initialTrainer) "i love my dog" =
        .error "NotFittedError" ∧
      ∀ r : PredictionResult,
        predict sk (save_model initialTrainer) "i love my dog" ≠
          .ok r := by
  refine ⟨⟨_, rfl⟩, rfl, ?_⟩
  intro r h
  have h2 : (Except.error "NotFittedError" :
      Except String PredictionResult) = Except.ok r := h
  exact Except.noConfusion h2

/-- Claim C10 (confirmed).  `preprocess_data` returns equal-length text
and label lists, ordered as the input, consisting exactly of the
examples whose preprocessed text is non-empty; and a dataset can pass
`validate_dataset` while an example whose text reduces to the empty
string is silently dropped, so `train_model` trains on fewer examples
than were validated. -/
theorem c10_preprocess_drops_empty (nlp : NLP)
    (examples : List TextExample) :
    (preprocess_data nlp examples).1.length =
        (preprocess_data nlp examples).2.length ∧
      (preprocess_data nlp examples).1 =
        (examples.filter
            (fun e => pyStrip (preprocess_text nlp e.text) != "")).map
          (fun e => preprocess_text nlp e.text) ∧
      (preprocess_data nlp examples).2 =
        (examples.filter
            (fun e => pyStrip (preprocess_text nlp e.text) != "")).map
          TextExample.label ∧
      validate_dataset
          [⟨"ab!", "x"⟩, ⟨"good dog", "x"⟩, ⟨"nice cat", "x"⟩] =
        (true, "Dataset is valid") ∧
      (preprocess_data simpleNLP
          [⟨"ab!", "x"⟩, ⟨"good dog", "x"⟩, ⟨"nice cat", "x"⟩]).1.length <
        ([⟨"ab!", "x"⟩, ⟨"good dog", "x"⟩,
          (⟨"nice cat", "x"⟩ : TextExample)] : List TextExample).length := by
  have key : ∀ exs : List TextExample,
      (exs.filterMap (fun e =>
        let processed := preprocess_text nlp e.text
        if pyStrip processed != "" then some (processed, e.label) else none)) =
      (exs.filter (fun e => pyStrip (preprocess_text nlp e.text) != "")).map
        (fun e => (preprocess_text nlp e.text, e.label)) := by
    intro exs
    induction exs with
    | nil => rfl
    | cons e t ih =>
      rw [List.filterMap_cons, List.filter_cons, ih]
      by_cases h : pyStrip (preprocess_text nlp e.text) = ""
      · simp [h]
      · simp [h]
  refine ⟨?_, ?_, ?_, by decide, by decide⟩
  · simp [preprocess_data]
  · simp only [preprocess_data, key, List.map_map]
    rfl
  · simp only [preprocess_data, key, List.map_map]
    rfl

/-! ## Claims C5–C6: dataset validation -/

/-- Value lookup in the `label_counts` association list. -/
def lookupCount : List (String × Nat) → String → Option Nat
  | [], _ => none
  | (k, c) :: rest, l => if k = l then some c else lookupCount rest l

theorem bump_lookup (acc : List (String × Nat)) (l k : String) :
    lookupCount (bump acc l) k =
      if k = l then some ((lookupCount acc k).getD 0 + 1)
      else lookupCount acc k := by
  induction acc with
  | nil =>
    by_cases h : k = l
    · subst h; simp [bump, lookupCount]
    · simp [bump, lookupCount, h, Ne.symm h]
  | cons hd tl ih =>
    obtain ⟨ek, ec⟩ := hd
    by_cases h1 : ek = l
    · subst h1
      by_cases h2 : ek = k
      · subst h2; simp [bump, lookupCount]
      · simp [bump, lookupCount, h2, Ne.symm h2]
    · by_cases h2 : ek = k
      · subst h2
        simp [bump, lookupCount, h1, Ne.symm h1]
      · simp [bump, lookupCount, h1, h2, ih]

theorem lookupCount_mem :
    ∀ (acc : List (String × Nat)) (l : String) (c : Nat),
      lookupCount acc l = some c → (l, c) ∈ acc := by
  intro acc
  induction acc with
  | nil => intro l c h; cases h
  | cons hd tl ih =>
    intro l c h
    obtain ⟨k, kc⟩ := hd
    by_cases hk : k = l
    · subst hk
      rw [lookupCount, if_pos rfl] at h
      injection h with h
      subst h
      exact List.mem_cons_self _ _
    · rw [lookupCount, if_neg hk] at h
      exact List.mem_cons_of_mem _ (ih l c h)

theorem mem_lookupCount :
    ∀ (acc : List (String × Nat)),
      ((acc.map Prod.fst).Nodup) → ∀ l c, (l, c) ∈ acc →
      lookupCount acc l = some c := by
  intro acc
  induction acc with
  | nil => intro _ l c h; cases h
  | cons hd tl ih =>
    intro hnd l c h
    obtain ⟨k, kc⟩ := hd
    rcases List.mem_cons.mp h with heq | htl
    · cases heq
      rw [lookupCount, if_pos rfl]
    · have hnd2 : k ∉ tl.map Prod.fst ∧ (tl.map Prod.fst).Nodup := by
        rw [List.map_cons, List.nodup_cons] at hnd
        exact hnd
      have hk : k ≠ l := by
        intro hkl
        subst hkl
        exact hnd2.1 (List.mem_map.mpr ⟨(k, c), htl, rfl⟩)
      rw [lookupCount, if_neg hk]
      exact ih hnd2.2 l c htl

theorem foldl_bump_lookup (exs : List TextExample) :
    ∀ (acc : List (String × Nat)) (l : String),
      lookupCount (exs.foldl (fun a e => bump a e.label) acc) l =
        match lookupCount acc l with
        | some c => some (c + countLabel exs l)
        | none =>
          if countLabel exs l = 0 then none
          else some (countLabel exs l) := by
  induction exs with
  | nil =>
    intro acc l
    cases h : lookupCount acc l <;> simp [countLabel, h]
  | cons e t ih =>
    intro acc l
    rw [List.foldl_cons, ih (bump acc e.label) l, bump_lookup]
    have hcc : countLabel (e :: t) l =
        countLabel t l + (if e.label = l then 1 else 0) := by
      simp [countLabel, List.count_cons]
    by_cases hle : l = e.label
    · have hif : (if e.label = l then 1 else 0) = 1 := if_pos hle.symm
      rw [if_pos hle, hcc, hif]
      cases hacc : lookupCount acc l <;> simp [hacc] <;> omega
    · have hif : (if e.label = l then 1 else 0) = 0 := if_neg (Ne.symm hle)
      rw [if_neg hle, hcc, hif]
      cases hacc : lookupCount acc l <;> simp [hacc]

theorem labelCounts_lookup (examples : List TextExample) (l : String) :
    lookupCount (labelCounts examples) l =
      if countLabel examples l = 0 then none
      else some (countLabel examples l) := by
  have h := foldl_bump_lookup examples [] l
  simpa [labelCounts, lookupCount] using h

theorem bump_keys (acc : List (String × Nat)) (l : String) :
    (bump acc l).map Prod.fst =
      if l ∈ acc.map Prod.fst then acc.map Prod.fst
      else acc.map Prod.fst ++ [l] := by
  induction acc with
  | nil => simp [bump]
  | cons hd tl ih =>
    obtain ⟨k, kc⟩ := hd
    by_cases hk : k = l
    · subst hk; simp [bump]
    · simp only [bump, if_neg hk, List.map_cons, ih]
      by_cases hmem : l ∈ tl.map Prod.fst
      · simp [hmem, Ne.symm hk]
      · simp [hmem, Ne.symm hk]

theorem foldl_bump_keys_nodup (exs : List TextExample) :
    ∀ acc : List (String × Nat),
      (acc.map Prod.fst).Nodup →
      ((exs.foldl (fun a e => bump a e.label) acc).map Prod.fst).Nodup := by
  induction exs with
  | nil => intro acc h; simpa using h
  | cons e t ih =>
    intro acc h
    rw [List.foldl_cons]
    apply ih
    rw [bump_keys]
    by_cases hmem : e.label ∈ acc.map Prod.fst
    · simpa [hmem] using h
    · simpa [hmem, List.nodup_append] using h

theorem labelCounts_keys_nodup (examples : List TextExample) :
    ((labelCounts examples).map Prod.fst).Nodup :=
  foldl_bump_keys_nodup examples [] (by simp)

theorem mem_labelCounts_count (examples : List TextExample) (l : String)
    (c : Nat) (h : (l, c) ∈ labelCounts examples) :
    c = countLabel examples l ∧
      l ∈ examples.map TextExample.label := by
  have hl := mem_lookupCount _ (labelCounts_keys_nodup examples) l c h
  rw [labelCounts_lookup] at hl
  by_cases h0 : countLabel examples l = 0
  · rw [if_pos h0] at hl; cases hl
  · rw [if_neg h0] at hl
    injection hl with hc
    exact ⟨hc.symm, List.count_pos_iff.mp (Nat.pos_of_ne_zero h0)⟩

theorem label_mem_labelCounts (examples : List TextExample) (l : String)
    (hmem : l ∈ examples.map TextExample.label) :
    (l, countLabel examples l) ∈ labelCounts examples := by
  have h0 : countLabel examples l ≠ 0 :=
    Nat.pos_iff_ne_zero.mp (List.count_pos_iff.mpr hmem)
  apply lookupCount_mem
  rw [labelCounts_lookup, if_neg h0]

/-- The label appears verbatim inside the below-minimum message. -/
theorem label_infix_minMsg (l : String) (c : Nat) :
    l.data <:+: (minMsg l c).data := by
  refine ⟨("Label \x27").data,
    ("\x27 has only " ++ toString c ++
      " examples. Minimum required is 2").data, ?_⟩
  simp [minMsg, List.append_assoc]

/-- The label appears verbatim inside the above-maximum message. -/
theorem label_infix_maxMsg (l : String) (c : Nat) :
    l.data <:+: (maxMsg l c).data := by
  refine ⟨("Label \x27").data,
    ("\x27 has " ++ toString c ++
      " examples. Maximum allowed is 10000").data, ?_⟩
  simp [maxMsg, List.append_assoc]

/-- Claim C5 (confirmed).  If some label of the dataset occurs fewer
than 2 or more than 10000 times, `train_model` raises (returns) a
validation error whose message names an offending label verbatim; and
`validate_dataset` accepts every non-empty dataset in which every
label's count lies within the bounds. -/
theorem c5_per_label_bounds (nlp : NLP)
    (split : Bool → List String → List String →
      (List String × List String) × (List String × List String))
    (st : TrainerState) (examples : List TextExample) :
    ((∃ l ∈ examples.map TextExample.label,
        countLabel examples l < 2 ∨ 10000 < countLabel examples l) →
      ∃ lbl msg,
        (countLabel examples lbl < 2 ∨
          10000 < countLabel examples lbl) ∧
        lbl ∈ examples.map TextExample.label ∧
        train_model nlp split st examples = .error msg ∧
        lbl.data <:+: msg.data) ∧
      (examples ≠ [] →
        (∀ l ∈ examples.map TextExample.label,
          2 ≤ countLabel examples l ∧ countLabel examples l ≤ 10000) →
        validate_dataset examples = (true, "Dataset is valid")) := by
  constructor
  · rintro ⟨l, hl, hbad⟩
    have hne : examples ≠ [] := by
      intro h; subst h; simp at hl
    have hie : examples.isEmpty = false := by
      cases examples with
      | nil => exact absurd rfl hne
      | cons a b => rfl
    have hmem : (l, countLabel examples l) ∈ labelCounts examples :=
      label_mem_labelCounts examples l hl
    have hpred : (fun p : String × Nat =>
        decide (p.2 < 2) || decide (10000 < p.2))
          (l, countLabel examples l) = true := by
      rcases hbad with h | h <;> simp [h]
    have hsome : ((labelCounts examples).find?
        (fun p => decide (p.2 < 2) || decide (10000 < p.2))).isSome :=
      List.find?_isSome.mpr ⟨_, hmem, hpred⟩
    obtain ⟨res, hres⟩ := Option.isSome_iff_exists.mp hsome
    obtain ⟨l2, c2⟩ := res
    have hresmem := List.mem_of_find?_eq_some hres
    have hrespred := List.find?_some hres
    obtain ⟨hc2, hl2mem⟩ := mem_labelCounts_count examples l2 c2 hresmem
    have hbad2 : c2 < 2 ∨ 10000 < c2 := by simpa using hrespred
    have hvd : validate_dataset examples =
        (false, if c2 < 2 then minMsg l2 c2 else maxMsg l2 c2) := by
      simp [validate_dataset, hie, hres]
    refine ⟨l2, if c2 < 2 then minMsg l2 c2 else maxMsg l2 c2,
      hc2 ▸ hbad2, hl2mem, by simp [train_model, hvd], ?_⟩
    by_cases h : c2 < 2
    · simpa [h] using label_infix_minMsg l2 c2
    · simpa [h] using label_infix_maxMsg l2 c2
  · intro hne hall
    have hie : examples.isEmpty = false := by
      cases examples with
      | nil => exact absurd rfl hne
      | cons a b => rfl
    have hnone : (labelCounts examples).find?
        (fun p => decide (p.2 < 2) || decide (10000 < p.2)) = none := by
      rw [List.find?_eq_none]
      rintro ⟨l, c⟩ hmem hp
      obtain ⟨hc, hlmem⟩ := mem_labelCounts_count examples l c hmem
      obtain ⟨h1, h2⟩ := hall l hlmem
      subst hc
      have hp2 : countLabel examples l < 2 ∨
          10000 < countLabel examples l := by simpa using hp
      rcases hp2 with h | h <;> omega
    simp [validate_dataset, hie, hnone]

/-- Witness for `c5_per_label_bounds`: `"cat"` with one example is
rejected with a message naming it; a balanced two-example dataset is
accepted. -/
theorem c5_witness :
    (∃ lbl msg,
        (countLabel
            [⟨"x", "cat"⟩, ⟨"y", "dog"⟩, ⟨"z", "dog"⟩] lbl < 2 ∨
          10000 <
            countLabel [⟨"x", "cat"⟩, ⟨"y", "dog"⟩, ⟨"z", "dog"⟩] lbl) ∧
        lbl ∈ ([⟨"x", "cat"⟩, ⟨"y", "dog"⟩,
            ⟨"z", "dog"⟩] : List TextExample).map TextExample.label ∧
        train_model simpleNLP simpleSplit initialTrainer
            [⟨"x", "cat"⟩, ⟨"y", "dog"⟩, ⟨"z", "dog"⟩] = .error msg ∧
        lbl.data <:+: msg.data) ∧
      validate_dataset [⟨"a", "x"⟩, ⟨"b", "x"⟩] =
        (true, "Dataset is valid") :=
  ⟨(c5_per_label_bounds simpleNLP simpleSplit initialTrainer _).1
      (by decide),
    (c5_per_label_bounds simpleNLP simpleSplit initialTrainer
        [⟨"a", "x"⟩, ⟨"b", "x"⟩]).2 (by decide) (by decide)⟩

/-- Claim C6 (counterexample).  The claim says training on 1 example
fails with a "need at least N examples" message.  It does fail — but via
the per-label minimum, with a message naming the label; no message of
the claimed shape exists in the code (there is no total-count floor
check at all). -/
theorem c6_counterexample :
    train_model simpleNLP simpleSplit initialTrainer
        [⟨"hello", "cat"⟩] =
      .error "Label \x27cat\x27 has only 1 examples. Minimum required is 2" ∧
      ¬ ("need at least".data <:+:
        ("Label \x27cat\x27 has only 1 examples. Minimum required is 2").data) := by
  constructor
  · rfl
  · decide

/-- Claim C6 (amended).  `validate_dataset` has no total-count floor:
an empty dataset fails with "No examples provided", and a one-example
dataset fails through the per-label minimum with the message naming its
label ("Label L has only 1 examples. Minimum required is 2"); so every
dataset of fewer than 2 examples makes `train_model` raise a validation
error. -/
theorem c6_amended (nlp : NLP)
    (split : Bool → List String → List String →
      (List String × List String) × (List String × List String))
    (st : TrainerState) (examples : List TextExample)
    (h : examples.length < 2) :
    ∃ msg, train_model nlp split st examples = .error msg ∧
      (examples = [] → msg = "No examples provided") ∧
      (∀ e : TextExample, examples = [e] → msg = minMsg e.label 1) := by
  cases examples with
  | nil =>
    exact ⟨"No examples provided", rfl, fun _ => rfl,
      fun e he => List.noConfusion he⟩
  | cons e t =>
    cases t with
    | nil =>
      refine ⟨minMsg e.label 1, rfl, fun he => List.noConfusion he,
        fun x hx => ?_⟩
      injection hx with h1 _
      rw [h1]
    | cons e2 t2 =>
      simp only [List.length_cons] at h
      omega

/-- Witness for `c6_amended` at the one-example dataset
`[("hello", "cat")]`. -/
theorem c6_amended_witness :
    ([(⟨"hello", "cat"⟩ : TextExample)].length < 2) ∧
      ∃ msg, train_model simpleNLP simpleSplit initialTrainer
          [⟨"hello", "cat"⟩] = .error msg ∧
        (([⟨"hello", "cat"⟩] : List TextExample) = [] →
          msg = "No examples provided") ∧
        (∀ e : TextExample,
          ([⟨"hello", "cat"⟩] : List TextExample) = [e] →
          msg = minMsg e.label 1) :=
  ⟨by decide,
    c6_amended simpleNLP simpleSplit initialTrainer
      [⟨"hello", "cat"⟩] (by decide)⟩

/-! ## Claim C7: prediction post-processing -/

theorem le_foldl_max (b : ℚ) (t : List ℚ) : b ≤ t.foldl max b := by
  induction t generalizing b with
  | nil => exact le_refl b
  | cons a t ih => exact le_trans (le_max_left b a) (ih (max b a))

theorem mem_le_foldl_max (t : List ℚ) (b : ℚ) :
    ∀ a ∈ t, a ≤ t.foldl max b := by
  induction t generalizing b with
  | nil => intro a ha; cases ha
  | cons c t ih =>
    intro a ha
    rcases List.mem_cons.mp ha with rfl | h
    · exact le_trans (le_max_right b a) (le_foldl_max _ _)
    · exact ih (max b c) a h

theorem foldl_max_mem (t : List ℚ) (b : ℚ) :
    t.foldl max b = b ∨ t.foldl max b ∈ t := by
  induction t generalizing b with
  | nil => left; rfl
  | cons c t ih =>
    rcases ih (max b c) with h | h
    · rcases max_choice b c with hm | hm
      · left; rw [List.foldl_cons, h, hm]
      · right
        rw [List.foldl_cons, h, hm]
        exact List.mem_cons_self _ _
    · right; exact List.mem_cons_of_mem _ h

/-- `max(probabilities)` is one of the probabilities. -/
theorem listMax_mem (l : List ℚ) (h : l ≠ []) : listMax l ∈ l := by
  cases l with
  | nil => exact absurd rfl h
  | cons a t =>
    rcases foldl_max_mem t a with h2 | h2
    · show t.foldl max a ∈ a :: t
      rw [h2]
      exact List.mem_cons_self _ _
    · exact List.mem_cons_of_mem _ h2

/-- Every probability is at most `max(probabilities)`. -/
theorem le_listMax (l : List ℚ) (a : ℚ) (ha : a ∈ l) : a ≤ listMax l := by
  cases l with
  | nil => cases ha
  | cons b t =>
    rcases List.mem_cons.mp ha with rfl | h
    · exact le_foldl_max _ _
    · exact mem_le_foldl_max t b a h

/-- Claim C7 (confirmed).  For every class list and probability vector,
`predictPost` returns the first arg-max class as `label`, confidence =
the maximal probability × 100 rounded to 2 decimals, and alternatives
drawn only from the other classes with their own rounded percentages,
sorted by descending confidence and truncated to at most 2 entries. -/
theorem c7_predict_postprocessing (classes : List String)
    (probs : List ℚ) (hlen : classes.length = probs.length)
    (hne : probs ≠ []) :
    ∃ h1 : argmaxIdx probs < probs.length,
      (∀ p ∈ probs, p ≤ probs.get ⟨argmaxIdx probs, h1⟩) ∧
      (∃ h2 : argmaxIdx probs < classes.length,
        (predictPost classes probs).label =
          classes.get ⟨argmaxIdx probs, h2⟩) ∧
      (predictPost classes probs).confidence =
        round2 (probs.get ⟨argmaxIdx probs, h1⟩ * 100) ∧
      (∀ a ∈ (predictPost classes probs).alternatives,
        a.label ≠ (predictPost classes probs).label ∧
        ∃ (j : Fin probs.length) (hj : j.val < classes.length),
          a.label = classes.get ⟨j.val, hj⟩ ∧
          a.confidence = round2 (probs.get j * 100)) ∧
      List.Sorted altGE (predictPost classes probs).alternatives ∧
      (predictPost classes probs).alternatives.length ≤ 2 := by
  have hmemmax : listMax probs ∈ probs := listMax_mem probs hne
  have h1 : argmaxIdx probs < probs.length :=
    List.indexOf_lt_length.mpr hmemmax
  have hget : probs.get ⟨argmaxIdx probs, h1⟩ = listMax probs :=
    List.indexOf_get h1
  have h2 : argmaxIdx probs < classes.length := by
    rw [hlen]; exact h1
  have hlabel : (predictPost classes probs).label =
      classes.getD (argmaxIdx probs) "" := rfl
  have halts : (predictPost classes probs).alternatives =
      (List.insertionSort altGE
        (((classes.zip probs).filter
            (fun p => p.1 != classes.getD (argmaxIdx probs) "")).map
          (fun p => (⟨p.1, round2 (p.2 * 100)⟩ : Alternative)))).take 2 :=
    rfl
  refine ⟨h1, ?_, ⟨h2, ?_⟩, ?_, ?_, ?_, ?_⟩
  · intro p hp
    rw [hget]
    exact le_listMax probs p hp
  · rw [hlabel, List.getD_eq_get?, List.get?_eq_get h2, Option.getD_some]
  · rw [hget]; rfl
  · intro a ha
    rw [halts] at ha
    have ha2 := List.take_subset _ _ ha
    have ha3 := (List.perm_insertionSort altGE _).mem_iff.mp ha2
    obtain ⟨p, hpmem, hpa⟩ := List.mem_map.mp ha3
    obtain ⟨hpz, hpg⟩ := List.mem_filter.mp hpmem
    constructor
    · rw [hlabel, ← hpa]
      simpa using hpg
    · obtain ⟨n, hn⟩ := List.mem_iff_get.mp hpz
      have hn1 : n.val < (classes.zip probs).length := n.isLt
      have hzlen : (classes.zip probs).length =
          min classes.length probs.length := by simp
      have hnlt : n.val < probs.length := by omega
      have hnltc : n.val < classes.length := by omega
      have hz : (classes.zip probs).get n =
          (classes.get ⟨n.val, hnltc⟩, probs.get ⟨n.val, hnlt⟩) := by
        simp [List.get_eq_getElem, List.getElem_zip]
      rw [hz] at hn
      refine ⟨⟨n.val, hnlt⟩, hnltc, ?_, ?_⟩
      · rw [← hpa, ← hn]
      · rw [← hpa, ← hn]
  · rw [halts]
    exact List.Pairwise.sublist (List.take_sublist 2 _)
      (List.sorted_insertionSort altGE _)
  · rw [halts]
    simp [List.length_take]

/-- Witness for `c7_predict_postprocessing` at three classes with
probabilities 0.1 / 0.7 / 0.2. -/
theorem c7_witness :
    (["pos", "neg", "mid"].length =
        ([1/10, 7/10, 1/5] : List ℚ).length) ∧
      (([1/10, 7/10, 1/5] : List ℚ) ≠ []) ∧
      ∃ h1 : argmaxIdx [1/10, 7/10, 1/5] <
          ([1/10, 7/10, 1/5] : List ℚ).length,
        (∀ p ∈ ([1/10, 7/10, 1/5] : List ℚ),
          p ≤ ([1/10, 7/10, 1/5] : List ℚ).get
            ⟨argmaxIdx [1/10, 7/10, 1/5], h1⟩) ∧
        (∃ h2 : argmaxIdx [1/10, 7/10, 1/5] <
            ["pos", "neg", "mid"].length,
          (predictPost ["pos", "neg", "mid"] [1/10, 7/10, 1/5]).label =
            ["pos", "neg", "mid"].get
              ⟨argmaxIdx [1/10, 7/10, 1/5], h2⟩) ∧
        (predictPost ["pos", "neg", "mid"] [1/10, 7/10, 1/5]).confidence =
          round2 (([1/10, 7/10, 1/5] : List ℚ).get
            ⟨argmaxIdx [1/10, 7/10, 1/5], h1⟩ * 100) ∧
        (∀ a ∈ (predictPost ["pos", "neg", "mid"]
            [1/10, 7/10, 1/5]).alternatives,
          a.label ≠
            (predictPost ["pos", "neg", "mid"] [1/10, 7/10, 1/5]).label ∧
          ∃ (j : Fin ([1/10, 7/10, 1/5] : List ℚ).length)
            (hj : j.val < ["pos", "neg", "mid"].length),
            a.label = ["pos", "neg", "mid"].get ⟨j.val, hj⟩ ∧
            a.confidence =
              round2 (([1/10, 7/10, 1/5] : List ℚ).get j * 100)) ∧
        List.Sorted altGE (predictPost ["pos", "neg", "mid"]
          [1/10, 7/10, 1/5]).alternatives ∧
        (predictPost ["pos", "neg", "mid"]
          [1/10, 7/10, 1/5]).alternatives.length ≤ 2 :=
  ⟨by decide, by simp,
    c7_predict_postprocessing ["pos", "neg", "mid"] [1/10, 7/10, 1/5]
      (by decide) (by simp)⟩

end Playground
